import Mathlib

/-!
Verification development for the devpi file-store subsystem and the
devpi-web project-indexing module.

The repository ships the file store's test suite
(`src/server/test_devpi_server/test_filestore.py`) and the indexing module
(`src/web/devpi_web/indexing.py`).  The file-store implementation itself is
not part of the sources, so it is modelled here from the specification
(`spec.md`), faithful to its words; the indexing module is embedded
directly from its source.

Content bytes are modelled as `List Nat`; storage paths are modelled as
lists of path segments (the tests observe paths only through
`relpath.split("/")`-style decompositions).
-/

set_option autoImplicit false

universe u v

/-- Association-map lookup on a list of key/value pairs: the first binding
of the key wins. -/
def aget {κ : Type u} {α : Type v} [DecidableEq κ] : List (κ × α) → κ → Option α
  | [], _ => none
  | (k', v) :: t, k => if k' = k then some v else aget t k

/-- Remove every binding of a key. -/
def adel {κ : Type u} {α : Type v} [DecidableEq κ] : List (κ × α) → κ → List (κ × α)
  | [], _ => []
  | (k', v) :: t, k => if k' = k then adel t k else (k', v) :: adel t k

/-- Bind a key to a value, dropping previous bindings of that key. -/
def aset {κ : Type u} {α : Type v} [DecidableEq κ] (l : List (κ × α)) (k : κ) (v : α) :
    List (κ × α) :=
  (k, v) :: adel l k

/-- Whether a key is bound. -/
def ahasKey {κ : Type u} {α : Type v} [DecidableEq κ] (l : List (κ × α)) (k : κ) : Bool :=
  (aget l k).isSome

theorem aget_adel_self {κ : Type u} {α : Type v} [DecidableEq κ]
    (l : List (κ × α)) (k : κ) : aget (adel l k) k = none := by
  induction l with
  | nil => rfl
  | cons p t ih =>
    obtain ⟨k', v⟩ := p
    by_cases h : k' = k <;> simp [adel, h, aget, ih]

theorem aget_adel_ne {κ : Type u} {α : Type v} [DecidableEq κ]
    (l : List (κ × α)) (k k' : κ) (h : k ≠ k') : aget (adel l k) k' = aget l k' := by
  induction l with
  | nil => rfl
  | cons p t ih =>
    obtain ⟨k₀, v⟩ := p
    by_cases h0 : k₀ = k
    · subst h0
      simp [adel, aget, h, ih]
    · by_cases h1 : k₀ = k' <;> simp [adel, h0, aget, h1, Ne.symm h, ih]

theorem aget_aset_self {κ : Type u} {α : Type v} [DecidableEq κ]
    (l : List (κ × α)) (k : κ) (v : α) : aget (aset l k v) k = some v := by
  simp [aset, aget]

theorem aget_aset_ne {κ : Type u} {α : Type v} [DecidableEq κ]
    (l : List (κ × α)) (k k' : κ) (v : α) (h : k ≠ k') :
    aget (aset l k v) k' = aget l k' := by
  simp [aset, aget, h, aget_adel_ne l k k' h]

/-! ## File store: data model (modelled from the spec) -/

/-- Modelled from the spec: a download link, carrying the fragment-free URL,
the final segment of the URL path (`basename`), an optional declared hash in
`"<algorithm>=<hex-digest>"` form (empty string when absent), and an optional
egg fragment. -/
structure Link where
  url_nofrag : String
  basename : String
  hash_spec : String
  eggfragment : Option String
deriving DecidableEq

/-- Modelled from the spec: the algorithm part of a `"<algorithm>=<digest>"`
hash spec — the characters before the first `=`. -/
def hash_algo (hs : String) : String := ⟨hs.data.takeWhile (· ≠ '=')⟩

/-- Modelled from the spec: the hex-digest part of a `"<algorithm>=<digest>"`
hash spec — the characters after the first `=`. -/
def hash_value (hs : String) : String := ⟨(hs.data.dropWhile (· ≠ '=')).drop 1⟩

/-- A storage path, as a list of path segments. -/
abbrev RelPath := List String

/-- Modelled from the spec: per-entry metadata record kept in the
transaction substrate. -/
structure FileEntryMeta where
  url : String
  hash_spec : String
  eggfragment : Option String
  last_modified : Option String
deriving DecidableEq

/-- Modelled from the spec: the per-artifact handle returned by
`maplink` / `store` / `get_file_entry`. -/
structure FileEntry where
  relpath : RelPath
  url : String
  hash_spec : String
  eggfragment : Option String
deriving DecidableEq

/-- The final segment of the entry's storage path. -/
def FileEntry.basename (e : FileEntry) : String := e.relpath.getLastD ""

/-- Modelled from the spec: equality of entries is defined by `relpath`
equality, independent of other mutable fields. -/
def entry_eq (a b : FileEntry) : Bool := a.relpath = b.relpath

/-- Modelled from the spec: the committed backing store — metadata records
in the transaction substrate plus materialized filesystem blobs. -/
structure FS where
  meta : List (RelPath × FileEntryMeta)
  blobs : List (RelPath × List Nat)
deriving DecidableEq

/-- Modelled from the spec: an ambient transaction — a base snapshot plus
staged writes (`some` record) and deletes (`none`), newest first. -/
structure Tx where
  base : FS
  smeta : List (RelPath × Option FileEntryMeta)
  sblobs : List (RelPath × Option (List Nat))
deriving DecidableEq

/-- A fresh transaction on a committed state. -/
def newTx (fs : FS) : Tx := ⟨fs, [], []⟩

/-- Read a metadata record through the transaction: staged state wins over
the base snapshot (read-your-writes). -/
def txMeta (tx : Tx) (p : RelPath) : Option FileEntryMeta :=
  match aget tx.smeta p with
  | some o => o
  | none => aget tx.base.meta p

/-- Read a blob through the transaction: staged state wins over the base
snapshot (read-your-writes). -/
def txBlob (tx : Tx) (p : RelPath) : Option (List Nat) :=
  match aget tx.sblobs p with
  | some o => o
  | none => aget tx.base.blobs p

/-- Modelled from the spec: `file_exists()` — existence is solely a function
of a committed/staged blob being present, independent of size being zero. -/
def file_exists (tx : Tx) (p : RelPath) : Bool := (txBlob tx p).isSome

/-- Modelled from the spec: `file_get_content()` as seen inside the ambient
transaction. -/
def file_get_content (tx : Tx) (p : RelPath) : Option (List Nat) := txBlob tx p

/-- Modelled from the spec: `file_size()` — `None` until known. -/
def file_size (tx : Tx) (p : RelPath) : Option Nat := (txBlob tx p).map List.length

/-- Modelled from the spec: `file_set_content(bytes)` stages a blob write in
the ambient transaction; the filesystem location is only materialized at
commit time. -/
def file_set_content (tx : Tx) (p : RelPath) (content : List Nat) : Tx :=
  { tx with sblobs := (p, some content) :: tx.sblobs }

/-- Modelled from the spec: `file_delete()` stages a blob delete; it takes
effect on the filesystem only at commit time. -/
def file_delete (tx : Tx) (p : RelPath) : Tx :=
  { tx with sblobs := (p, none) :: tx.sblobs }

/-- Stage a metadata record for an entry. -/
def setMeta (tx : Tx) (p : RelPath) (m : FileEntryMeta) : Tx :=
  { tx with smeta := (p, some m) :: tx.smeta }

/-- Apply a staged op list (newest first) to a committed map: the newest
staged op for a key wins. -/
def applyStaged {κ : Type u} {α : Type v} [DecidableEq κ] :
    List (κ × α) → List (κ × Option α) → List (κ × α)
  | base, [] => base
  | base, (k, some v) :: rest => aset (applyStaged base rest) k v
  | base, (k, none) :: rest => adel (applyStaged base rest) k

/-- Modelled from the spec: `commit()` materializes all staged writes and
deletes onto the backing store. -/
def txCommit (tx : Tx) : FS :=
  { meta := applyStaged tx.base.meta tx.smeta
    blobs := applyStaged tx.base.blobs tx.sblobs }

/-- Modelled from the spec: `rollback()` discards all staged state, leaving
the backing store untouched. -/
def txRollback (tx : Tx) : FS := tx.base

/-- Modelled from the spec: `restart_as_write_transaction()` commits the
current transaction and opens a fresh one on the committed state. -/
def restart_as_write (tx : Tx) : Tx := newTx (txCommit tx)

/-- Modelled from the spec: `os.path.exists` on the entry's backing
filesystem location — observes only committed state, never staged state. -/
def os_path_exists (fs : FS) (p : RelPath) : Bool := (aget fs.blobs p).isSome

/-! ## File store: operations (modelled from the spec) -/

/-- Modelled from the spec: the two-level fixed-width sharding of a hash
value — the first 3 hex characters, then characters 3 through 15. -/
def splitdir (h : String) : List String := [h.take 3, (h.drop 3).take 13]

/-- Modelled from the spec: `maplink(link)` — pure path derivation plus
entry creation in the transaction substrate; performs no fetch and touches
no blob.  Hash-addressed links shard on the hash value; links without a
declared hash derive the path from the URL path's final segment only.
`root` is the namespace root owned by the collaborator model. -/
def maplink (root : RelPath) (link : Link) (tx : Tx) : FileEntry × Tx :=
  let relpath : RelPath :=
    if link.hash_spec ≠ "" then
      root ++ splitdir (hash_value link.hash_spec) ++ [link.basename]
    else
      root ++ [link.basename]
  let entry : FileEntry :=
    { relpath := relpath
      url := link.url_nofrag
      hash_spec := link.hash_spec
      eggfragment := link.eggfragment }
  (entry,
   setMeta tx relpath
     { url := link.url_nofrag
       hash_spec := link.hash_spec
       eggfragment := link.eggfragment
       last_modified := none })

/-- Modelled from the spec: `get_file_entry(relpath)` re-hydrates an entry
by path from the transaction substrate. -/
def get_file_entry (tx : Tx) (p : RelPath) : Option FileEntry :=
  (txMeta tx p).map fun m =>
    { relpath := p
      url := m.url
      hash_spec := m.hash_spec
      eggfragment := m.eggfragment }

/-- Modelled from the spec: `store(owner, index, basename, content)` ingests
caller-supplied bytes directly, computing a hash over `content` with the
store's default algorithm (`digest defaultAlgo`) and setting `hash_spec`
accordingly; the path shards on the computed digest. -/
def store (digest : String → List Nat → String) (defaultAlgo : String)
    (owner index basename : String) (content : List Nat) (tx : Tx) :
    FileEntry × Tx :=
  let hv := digest defaultAlgo content
  let relpath : RelPath := [owner, index, "+f"] ++ splitdir hv ++ [basename]
  let hs := defaultAlgo ++ "=" ++ hv
  let m : FileEntryMeta :=
    { url := ""
      hash_spec := hs
      eggfragment := none
      last_modified := some "now" }
  (⟨relpath, "", hs, none⟩,
   file_set_content (setMeta tx relpath m) relpath content)

/-! ## Remote fetcher (modelled from the spec) -/

/-- Modelled from the spec: the HTTP response headers the subsystem
interprets — `content-length` (decimal byte count or absent, modelled
already parsed), `last-modified` and `content-type` (opaque strings, or
absent) — plus status code and body. -/
structure HttpResponse where
  status_code : Nat
  content_length : Option Nat
  last_modified : Option String
  content_type : Option String
  body : List Nat
deriving DecidableEq

/-- Modelled from the spec: the error taxonomy of the remote fetcher —
fetch error (non-success HTTP status), size-mismatch error, integrity
error (carrying the computed and the expected digest). -/
inductive FetchErr where
  | http (status : Nat)
  | sizeMismatch (declared got : Nat)
  | integrity (computed expected : String)
deriving DecidableEq

/-- Modelled from the spec: the error message; an integrity error's message
names the expected digest value. -/
def FetchErr.message : FetchErr → String
  | .http s => "fetch error: status " ++ toString s
  | .sizeMismatch d g =>
      "size mismatch: declared " ++ toString d ++ ", got " ++ toString g
  | .integrity c e => "digest mismatch, expected " ++ e ++ ", got " ++ c

/-- Modelled from the spec: `cache_remote_file()` — verify a non-success
status, the declared content-length against the streamed byte count, and a
pre-declared `hash_spec` against the digest of the downloaded bytes
(computed by the abstract `digest` function); on any size/integrity
failure the entry ends the operation in a non-existent state (no partial
blob retained); on success the blob is stored and `last-modified` is
captured when the response returned it (stale value kept otherwise). -/
def cache_remote_file (digest : String → List Nat → String) (e : FileEntry)
    (r : HttpResponse) (tx : Tx) : Except FetchErr Unit × Tx :=
  if r.status_code ≠ 200 then
    (.error (.http r.status_code), tx)
  else
    let sizeBad : Bool :=
      match r.content_length with
      | some n => r.body.length ≠ n
      | none => false
    if sizeBad then
      (.error (.sizeMismatch (r.content_length.getD 0) r.body.length),
       file_delete tx e.relpath)
    else
      let computed := digest (hash_algo e.hash_spec) r.body
      let expected := hash_value e.hash_spec
      if e.hash_spec ≠ "" ∧ computed ≠ expected then
        (.error (.integrity computed expected), file_delete tx e.relpath)
      else
        let oldlm :=
          match txMeta tx e.relpath with
          | some m => m.last_modified
          | none => none
        let newlm :=
          match r.last_modified with
          | some s => some s
          | none => oldlm
        (.ok (),
         file_set_content
           (setMeta tx e.relpath
             { url := e.url
               hash_spec := e.hash_spec
               eggfragment := e.eggfragment
               last_modified := newlm })
           e.relpath r.body)

/-- Modelled from the spec: derive a media type from a basename (the tests
observe a zip media type for `.zip` basenames). -/
def guess_type (basename : String) : String :=
  if basename.endsWith ".zip" then "application/zip"
  else "application/octet-stream"

/-- Modelled from the spec: `gethttpheaders()` — for an existing entry,
`content-length` is the decimal byte count of the stored blob,
`content-type` is derived from the entry's basename, and `last-modified`
is the captured value from the last fetch that returned one. -/
def gethttpheaders (tx : Tx) (e : FileEntry) : List (String × String) :=
  match txBlob tx e.relpath with
  | none => []
  | some content =>
      [("content-length", toString content.length),
       ("content-type", guess_type e.basename),
       ("last-modified",
        match txMeta tx e.relpath with
        | some m => m.last_modified.getD ""
        | none => "")]

/-! ## Project indexing (embedded from `src/web/devpi_web/indexing.py`) -/

/-- A metadata value in a preprocessing result: either a plain string value
(as stored in version metadata) or a documentation handle (`Docs` object). -/
inductive MetaVal where
  | str (s : String)
  | docs (version : String)
deriving DecidableEq

/-- Modelled from the spec: `normalize_name` / `ensure_unicode` come from `devpi_common` which is
not part of the sources; modelled from the spec as producing a normalized
(lower-cased) project name.  The claims do not depend on the normalization
details. -/
def normalize_name (s : String) : String := s.toLower

/-- Modelled from the spec: `get_sorted_versions` comes from `devpi_common` which is not part of
the sources; modelled from the spec as returning the versions newest first
(here: descending lexicographic order).  The claims do not depend on the
comparator. -/
def get_sorted_versions (vs : List String) : List String :=
  List.insertionSort (fun a b => b ≤ a) vs

/-- A stage (index), duck-typed as in the source: configuration type,
cache predicate, optional `(user, index)` accessor (`none` models the
`AttributeError` fallback that splits `stage.name`), recognized metadata
keys, and the per-project version/link/doc accessors used by
`preprocess_project` and `iter_projects`. -/
structure Stage where
  name : String
  ixtype : String
  cached : String → Bool
  userIndex : Option (String × String)
  metadata_keys : List String
  list_versions_perstage : String → List String
  get_versiondata_perstage : String → String → List (String × MetaVal)
  doczip_links : String → String → List String
  docs_exist : String → String → Bool
  list_projects_perstage : List String

/-- Embedded from the source: `is_project_cached(stage, project)` — only a
mirror-type stage can report a project as uncached. -/
def is_project_cached (stage : Stage) (project : String) : Bool :=
  if stage.ixtype = "mirror" then
    if ¬ stage.cached project then false else true
  else true

/-- Embedded from the source: the `result.update(verdata)` performed on the
first (`i == 0`) iteration of `preprocess_project`'s version loop. -/
def mergeFirst (stage : Stage) (name v : String) (first : Bool)
    (result : List (String × MetaVal)) : List (String × MetaVal) :=
  if first then
    (stage.get_versiondata_perstage name v).foldl
      (fun acc kv => aset acc kv.1 kv.2) result
  else result

/-- Embedded from the source: the body of `preprocess_project`'s
newest-to-oldest version loop.  `first` tracks `i == 0` of the source's
`enumerate`; on a version with doczip links the scan stops (`break`),
optionally recording `doc_version` and the `+doczip` handle; on a version
without doczip links the source asserts `'+doczip' not in result`, modelled
as an `Except.error`. -/
def versionScan (stage : Stage) (name : String) :
    List String → Bool → List (String × MetaVal) →
    Except String (List (String × MetaVal))
  | [], _, result => .ok result
  | v :: rest, first, result =>
    if (stage.doczip_links name v).isEmpty then
      if ahasKey (mergeFirst stage name v first result) "+doczip" then
        .error "assert +doczip not in result"
      else versionScan stage name rest false (mergeFirst stage name v first result)
    else
      if stage.docs_exist name v then
        .ok (aset (aset (mergeFirst stage name v first result) "doc_version"
          (.str v)) "+doczip" (.docs v))
      else .ok (mergeFirst stage name v first result)

/-- Embedded from the source: `preprocess_project(project)` — stub record
for uncached mirror projects; otherwise merge the newest version's
metadata, scan for the first version with a doczip link, add `user` and
`index`, and strip recognized metadata keys whose value is `'UNKNOWN'` or
falsy.  Setting `stage.offline` has no bearing on the returned mapping and
is elided. -/
def preprocess_project (stage : Stage) (projectName : String) :
    Except String (List (String × MetaVal)) :=
  let name := normalize_name projectName
  let ui :=
    match stage.userIndex with
    | some p => p
    | none =>
        ((stage.name.splitOn "/").getD 0 "", (stage.name.splitOn "/").getD 1 "")
  if ¬ is_project_cached stage name then
    .ok [("name", .str name), ("user", .str ui.1), ("index", .str ui.2)]
  else
    let versions := get_sorted_versions (stage.list_versions_perstage name)
    match versionScan stage name versions true [("name", .str name)] with
    | .error e => .error e
    | .ok result =>
      let result := aset (aset result "user" (.str ui.1)) "index" (.str ui.2)
      let result := stage.metadata_keys.foldl
        (fun acc key =>
          match aget acc key with
          | some (MetaVal.str s) =>
              if s = "UNKNOWN" ∨ s = "" then adel acc key else acc
          | _ => acc)
        result
      .ok result

/-- Embedded from the source: a `ProjectIndexingInfo` record. -/
structure ProjectIndexingInfo where
  stage : Stage
  name : String

/-- The `indexname` projection of a record (embedded from the source). -/
def ProjectIndexingInfo.indexname (p : ProjectIndexingInfo) : String :=
  p.stage.name

/-- The `is_from_mirror` projection of a record (embedded from the source). -/
def ProjectIndexingInfo.is_from_mirror (p : ProjectIndexingInfo) : Bool :=
  p.stage.ixtype = "mirror"

/-- A user of the model: a name plus the index names listed in the user's
information record (`user_info.get('indexes', {})`). -/
structure XomUser where
  name : String
  indexes : List String

/-- The model root: the user list and stage resolution (`getstage` returns
`none` when the stage has been removed — "this is async, so the stage may
be gone"). -/
structure Xom where
  users : List XomUser
  getstage : String → String → Option Stage

/-- Embedded from the source: `iter_projects(xom)` — iterate every user,
every index of the user, resolve the stage (silently skipping a vanished
one), and yield a `ProjectIndexingInfo` for every project name the stage
reports.  The rate-limited progress logging is side-effect only and is
elided. -/
def iter_projects (xom : Xom) : List ProjectIndexingInfo :=
  xom.users.flatMap fun user =>
    user.indexes.flatMap fun index =>
      match xom.getstage user.name index with
      | none => []
      | some stage =>
          stage.list_projects_perstage.map fun n =>
            { stage := stage, name := n }

/-! ## Helper lemmas -/

theorem aget_cons_self {κ : Type u} {α : Type v} [DecidableEq κ]
    (k : κ) (v : α) (t : List (κ × α)) : aget ((k, v) :: t) k = some v := by
  simp [aget]

/-! ## Claim theorems: file store -/

/-- C1: a blob write inside an ambient transaction is visible to reads in
that transaction (`file_exists()` true, `file_get_content()` returns the
bytes) while the backing filesystem location is not yet materialized; a
write followed by rollback leaves the location absent; a write followed by
commit makes the location present; a `file_delete()` followed by commit
makes the location absent (the delete only takes effect at commit). -/
theorem c1_file_tx_discipline (root : RelPath) (link : Link) (tx₀ : Tx)
    (content : List Nat)
    (h : os_path_exists tx₀.base ((maplink root link tx₀).1).relpath = false) :
    let p := ((maplink root link tx₀).1).relpath
    let tx2 := file_set_content ((maplink root link tx₀).2) p content
    file_exists tx2 p = true
    ∧ file_get_content tx2 p = some content
    ∧ os_path_exists tx2.base p = false
    ∧ os_path_exists (txRollback tx2) p = false
    ∧ os_path_exists (txCommit tx2) p = true
    ∧ os_path_exists (restart_as_write tx2).base p = true
    ∧ file_exists (file_delete (restart_as_write tx2) p) p = false
    ∧ os_path_exists (file_delete (restart_as_write tx2) p).base p = true
    ∧ os_path_exists (txCommit (file_delete (restart_as_write tx2) p)) p = false := by
  intro p tx2
  have hbase : ((maplink root link tx₀).2).base = tx₀.base := rfl
  have hsb : ((maplink root link tx₀).2).sblobs = tx₀.sblobs := rfl
  have hcommit : os_path_exists (txCommit tx2) p = true := by
    simp [tx2, os_path_exists, txCommit, file_set_content, hsb, applyStaged,
      aget_aset_self]
  refine ⟨?_, ?_, ?_, ?_, hcommit, ?_, ?_, ?_, ?_⟩
  · simp [tx2, file_exists, txBlob, file_set_content, aget]
  · simp [tx2, file_get_content, txBlob, file_set_content, aget]
  · simpa [tx2, file_set_content, hbase] using h
  · simpa [tx2, txRollback, file_set_content, hbase] using h
  · simpa [restart_as_write, newTx] using hcommit
  · simp [file_exists, txBlob, file_delete, aget]
  · simpa [file_delete, restart_as_write, newTx] using hcommit
  · simp [os_path_exists, txCommit, file_delete, restart_as_write, newTx,
      applyStaged, aget_adel_self]

/-- C1 witness: the transaction-discipline theorem at a concrete link,
empty backing store and content `b"123"`. -/
theorem c1_file_tx_discipline_witness :
    os_path_exists (newTx ⟨[], []⟩).base
      ((maplink ["root", "pypi", "+f"]
        ⟨"http://pypi.org/pytest-1.8.zip", "pytest-1.8.zip", "", none⟩
        (newTx ⟨[], []⟩)).1).relpath = false
    ∧ (let p := ((maplink ["root", "pypi", "+f"]
          ⟨"http://pypi.org/pytest-1.8.zip", "pytest-1.8.zip", "", none⟩
          (newTx ⟨[], []⟩)).1).relpath
       let tx2 := file_set_content ((maplink ["root", "pypi", "+f"]
          ⟨"http://pypi.org/pytest-1.8.zip", "pytest-1.8.zip", "", none⟩
          (newTx ⟨[], []⟩)).2) p [49, 50, 51]
       file_exists tx2 p = true
       ∧ file_get_content tx2 p = some [49, 50, 51]
       ∧ os_path_exists tx2.base p = false
       ∧ os_path_exists (txRollback tx2) p = false
       ∧ os_path_exists (txCommit tx2) p = true
       ∧ os_path_exists (restart_as_write tx2).base p = true
       ∧ file_exists (file_delete (restart_as_write tx2) p) p = false
       ∧ os_path_exists (file_delete (restart_as_write tx2) p).base p = true
       ∧ os_path_exists (txCommit (file_delete (restart_as_write tx2) p)) p
           = false) :=
  ⟨rfl, c1_file_tx_discipline _ _ _ _ rfl⟩

/-- C2: for every link carrying a declared hash value, `maplink` produces
an entry whose `relpath` ends with `h[0:3]/h[3:16]/<basename>`: the two
path components preceding the basename are the first 3 characters of the
hash and characters 3 through 15. -/
theorem c2_maplink_split_hash (root : RelPath) (link : Link) (tx : Tx)
    (h : link.hash_spec ≠ "") :
    ∃ t : RelPath, ((maplink root link tx).1).relpath =
      t ++ [(hash_value link.hash_spec).take 3,
            ((hash_value link.hash_spec).drop 3).take 13,
            link.basename] :=
  ⟨root, by simp [maplink, h, splitdir]⟩

/-- C2 witness: the sharding theorem at a concrete 32-character digest. -/
theorem c2_maplink_split_hash_witness :
    (Link.hash_spec ⟨"http://pypi.org/pytest-1.2.zip", "pytest-1.2.zip",
        "md5=aaaaaaaaaaaaaaaaaaaaaaaaaaaaaaaa", none⟩ ≠ "")
    ∧ ∃ t : RelPath,
      ((maplink ["root", "pypi", "+f"]
          ⟨"http://pypi.org/pytest-1.2.zip", "pytest-1.2.zip",
           "md5=aaaaaaaaaaaaaaaaaaaaaaaaaaaaaaaa", none⟩
          (newTx ⟨[], []⟩)).1).relpath =
        t ++ [(hash_value (Link.hash_spec ⟨"http://pypi.org/pytest-1.2.zip",
                "pytest-1.2.zip", "md5=aaaaaaaaaaaaaaaaaaaaaaaaaaaaaaaa",
                none⟩)).take 3,
              ((hash_value (Link.hash_spec ⟨"http://pypi.org/pytest-1.2.zip",
                "pytest-1.2.zip", "md5=aaaaaaaaaaaaaaaaaaaaaaaaaaaaaaaa",
                none⟩)).drop 3).take 13,
              Link.basename ⟨"http://pypi.org/pytest-1.2.zip",
                "pytest-1.2.zip", "md5=aaaaaaaaaaaaaaaaaaaaaaaaaaaaaaaa",
                none⟩] :=
  ⟨by decide, c2_maplink_split_hash _ _ _ (by decide)⟩

/-- C3: on an entry with a pre-declared `hash_spec`, if the streamed body's
digest under that spec's algorithm differs from the declared digest,
`cache_remote_file()` raises an integrity error whose message text contains
the expected (declared) digest value, and afterwards `file_exists()` is
false. -/
theorem c3_integrity_error (digest : String → List Nat → String)
    (e : FileEntry) (r : HttpResponse) (tx : Tx)
    (hst : r.status_code = 200)
    (hlen : ∀ n, r.content_length = some n → r.body.length = n)
    (hhs : e.hash_spec ≠ "")
    (hmm : digest (hash_algo e.hash_spec) r.body ≠ hash_value e.hash_spec) :
    ∃ err : FetchErr,
      (cache_remote_file digest e r tx).1 = Except.error err
      ∧ (∃ pre suf : String,
          err.message = pre ++ hash_value e.hash_spec ++ suf)
      ∧ file_exists (cache_remote_file digest e r tx).2 e.relpath = false := by
  have hout : cache_remote_file digest e r tx =
      (Except.error (FetchErr.integrity (digest (hash_algo e.hash_spec) r.body)
          (hash_value e.hash_spec)),
       file_delete tx e.relpath) := by
    cases hcl : r.content_length with
    | none => simp [cache_remote_file, hst, hcl, hhs, hmm]
    | some n =>
      have hn := hlen n hcl
      simp [cache_remote_file, hst, hcl, hn, hhs, hmm]
  refine ⟨FetchErr.integrity (digest (hash_algo e.hash_spec) r.body)
      (hash_value e.hash_spec), by rw [hout], ?_, ?_⟩
  · exact ⟨"digest mismatch, expected ",
      ", got " ++ digest (hash_algo e.hash_spec) r.body,
      by simp [FetchErr.message, String.append_assoc]⟩
  · rw [hout]
    simp [file_exists, txBlob, file_delete, aget]

/-- C3 witness: the integrity-error theorem at a concrete entry and
response, with a concrete digest function. -/
theorem c3_integrity_error_witness :
    ((⟨200, some 3, none, none, [49, 50, 51]⟩ : HttpResponse).status_code = 200)
    ∧ (∀ n, (⟨200, some 3, none, none, [49, 50, 51]⟩ :
        HttpResponse).content_length = some n →
        (HttpResponse.body ⟨200, some 3, none, none, [49, 50, 51]⟩).length = n)
    ∧ (FileEntry.hash_spec ⟨["root", "pypi", "+f", "aaa", "bbb", "x.zip"], "",
        "md5=deadbeef", none⟩ ≠ "")
    ∧ (fun (a : String) (bs : List Nat) => a ++ toString bs.length)
        (hash_algo (FileEntry.hash_spec ⟨["root", "pypi", "+f", "aaa", "bbb",
          "x.zip"], "", "md5=deadbeef", none⟩))
        (HttpResponse.body ⟨200, some 3, none, none, [49, 50, 51]⟩)
      ≠ hash_value (FileEntry.hash_spec ⟨["root", "pypi", "+f", "aaa", "bbb",
          "x.zip"], "", "md5=deadbeef", none⟩)
    ∧ (∃ err : FetchErr,
        (cache_remote_file (fun (a : String) (bs : List Nat) =>
            a ++ toString bs.length)
          ⟨["root", "pypi", "+f", "aaa", "bbb", "x.zip"], "", "md5=deadbeef",
            none⟩
          ⟨200, some 3, none, none, [49, 50, 51]⟩ (newTx ⟨[], []⟩)).1 =
            Except.error err
        ∧ (∃ pre suf : String,
            err.message = pre ++ hash_value (FileEntry.hash_spec
              ⟨["root", "pypi", "+f", "aaa", "bbb", "x.zip"], "",
               "md5=deadbeef", none⟩) ++ suf)
        ∧ file_exists (cache_remote_file (fun (a : String) (bs : List Nat) =>
            a ++ toString bs.length)
            ⟨["root", "pypi", "+f", "aaa", "bbb", "x.zip"], "", "md5=deadbeef",
              none⟩
            ⟨200, some 3, none, none, [49, 50, 51]⟩ (newTx ⟨[], []⟩)).2
            (FileEntry.relpath ⟨["root", "pypi", "+f", "aaa", "bbb", "x.zip"],
              "", "md5=deadbeef", none⟩) = false) :=
  ⟨rfl, by decide, by decide, by decide,
   c3_integrity_error _ _ _ _ rfl (by decide) (by decide) (by decide)⟩

/-- C4: if the HTTP response declares a content-length and the streamed
byte count differs from it, `cache_remote_file()` raises a size-mismatch
error and afterwards `file_exists()` is false. -/
theorem c4_size_mismatch (digest : String → List Nat → String)
    (e : FileEntry) (r : HttpResponse) (tx : Tx) (n : Nat)
    (hst : r.status_code = 200)
    (hcl : r.content_length = some n)
    (hmm : r.body.length ≠ n) :
    (cache_remote_file digest e r tx).1 =
      Except.error (FetchErr.sizeMismatch n r.body.length)
    ∧ file_exists (cache_remote_file digest e r tx).2 e.relpath = false := by
  have hout : cache_remote_file digest e r tx =
      (Except.error (FetchErr.sizeMismatch n r.body.length),
       file_delete tx e.relpath) := by
    simp [cache_remote_file, hst, hcl, hmm]
  rw [hout]
  exact ⟨rfl, by simp [file_exists, txBlob, file_delete, aget]⟩

/-- C4 witness: the size-mismatch theorem at a concrete response declaring
3 bytes but delivering 1. -/
theorem c4_size_mismatch_witness :
    ((⟨200, some 3, none, none, [49]⟩ : HttpResponse).status_code = 200)
    ∧ ((⟨200, some 3, none, none, [49]⟩ : HttpResponse).content_length
        = some 3)
    ∧ ((HttpResponse.body ⟨200, some 3, none, none, [49]⟩).length ≠ 3)
    ∧ (cache_remote_file (fun _ _ => "")
        ⟨["root", "pypi", "+f", "x.zip"], "", "", none⟩
        ⟨200, some 3, none, none, [49]⟩ (newTx ⟨[], []⟩)).1 =
          Except.error (FetchErr.sizeMismatch 3
            (HttpResponse.body ⟨200, some 3, none, none, [49]⟩).length)
    ∧ file_exists (cache_remote_file (fun _ _ => "")
        ⟨["root", "pypi", "+f", "x.zip"], "", "", none⟩
        ⟨200, some 3, none, none, [49]⟩ (newTx ⟨[], []⟩)).2
        (FileEntry.relpath ⟨["root", "pypi", "+f", "x.zip"], "", "", none⟩)
        = false := by
  have h := c4_size_mismatch (fun _ _ => "")
    ⟨["root", "pypi", "+f", "x.zip"], "", "", none⟩
    ⟨200, some 3, none, none, [49]⟩ (newTx ⟨[], []⟩) 3 rfl rfl (by decide)
  exact ⟨rfl, rfl, by decide, h.1, h.2⟩

/-- C5: `maplink` is deterministic and idempotent — two calls with an
equivalent link return entries with identical `relpath` (indeed identical
entries), entry equality is `relpath` equality, and `maplink` performs no
fetch: it touches neither staged blobs nor the backing store, so
`file_exists()` is unchanged (in particular still false until content is
stored). -/
theorem c5_maplink_idempotent (root : RelPath) (link : Link) (tx tx' : Tx) :
    (maplink root link tx).1 = (maplink root link tx').1
    ∧ entry_eq (maplink root link tx).1
        ((maplink root link ((maplink root link tx).2)).1) = true
    ∧ ((maplink root link tx).2).sblobs = tx.sblobs
    ∧ ((maplink root link tx).2).base = tx.base
    ∧ ∀ p : RelPath, file_exists ((maplink root link tx).2) p
        = file_exists tx p := by
  have h : (maplink root link tx).1.relpath =
      (maplink root link ((maplink root link tx).2)).1.relpath := rfl
  exact ⟨rfl, by simp [entry_eq, h], rfl, rfl, fun _ => rfl⟩

/-- C6: `store(owner, index, basename, content)` returns an entry whose
`hash_spec` ends with the digest of `content` under the store's default
algorithm and which exists; re-hydrating the entry via
`get_file_entry(relpath)` in a new transaction yields an entry with the
same basename and an equal `hash_spec`, and `file_get_content()` returns
the original bytes. -/
theorem c6_store_roundtrip (digest : String → List Nat → String)
    (defaultAlgo owner index basename : String) (content : List Nat)
    (tx : Tx) :
    let out := store digest defaultAlgo owner index basename content tx
    (∃ pre : String, out.1.hash_spec = pre ++ digest defaultAlgo content)
    ∧ file_exists out.2 out.1.relpath = true
    ∧ ∃ e2 : FileEntry,
        get_file_entry (restart_as_write out.2) out.1.relpath = some e2
        ∧ e2.basename = out.1.basename
        ∧ e2.hash_spec = out.1.hash_spec
        ∧ file_get_content (restart_as_write out.2) out.1.relpath
            = some content := by
  refine ⟨⟨defaultAlgo ++ "=", by simp [store, String.append_assoc]⟩, ?_, ?_⟩
  · simp [store, file_exists, txBlob, file_set_content, setMeta, aget]
  · refine ⟨⟨(store digest defaultAlgo owner index basename content tx).1.relpath,
      "", defaultAlgo ++ "=" ++ digest defaultAlgo content, none⟩, ?_, rfl, ?_, ?_⟩
    · simp [get_file_entry, restart_as_write, newTx, txMeta, txCommit, store,
        file_set_content, setMeta, aget, applyStaged, aget_aset_self]
    · simp [store]
    · simp [file_get_content, restart_as_write, newTx, txBlob, txCommit, store,
        file_set_content, setMeta, aget, applyStaged, aget_aset_self]

/-- C9 counterexample: for an entry created by `maplink` from a link with
no declared hash, `file_exists()` is false on first creation, but after
`file_set_content(b"")` it is **true** — contrary to the claim that it
"remains false": existence tracks the presence of a staged/committed blob,
independent of the blob's size being zero (as the repository's own
`test_file_delete` asserts). -/
theorem c9_counterexample :
    file_exists
      ((maplink ["root", "pypi"]
        ⟨"http://pypi.org/pytest-1.2.zip", "pytest-1.2.zip", "", none⟩
        (newTx ⟨[], []⟩)).2)
      ((maplink ["root", "pypi"]
        ⟨"http://pypi.org/pytest-1.2.zip", "pytest-1.2.zip", "", none⟩
        (newTx ⟨[], []⟩)).1).relpath = false
    ∧ file_exists
      (file_set_content
        ((maplink ["root", "pypi"]
          ⟨"http://pypi.org/pytest-1.2.zip", "pytest-1.2.zip", "", none⟩
          (newTx ⟨[], []⟩)).2)
        ((maplink ["root", "pypi"]
          ⟨"http://pypi.org/pytest-1.2.zip", "pytest-1.2.zip", "", none⟩
          (newTx ⟨[], []⟩)).1).relpath [])
      ((maplink ["root", "pypi"]
        ⟨"http://pypi.org/pytest-1.2.zip", "pytest-1.2.zip", "", none⟩
        (newTx ⟨[], []⟩)).1).relpath = true :=
  ⟨rfl, rfl⟩

/-- C9 (amended): a `maplink` entry for a link with no declared hash has an
empty `hash_spec` and `file_exists()` false on first creation (when no blob
is present); after `file_set_content(b"")` the entry **exists** — existence
reflects the presence of a staged/committed blob independent of its size
being zero — and a subsequent `file_delete()` makes it non-existent again. -/
theorem c9_empty_content (root : RelPath) (link : Link) (tx : Tx)
    (hhs : link.hash_spec = "")
    (h0 : file_exists tx ((maplink root link tx).1).relpath = false) :
    let e := (maplink root link tx).1
    let tx1 := (maplink root link tx).2
    e.hash_spec = ""
    ∧ file_exists tx1 e.relpath = false
    ∧ file_exists (file_set_content tx1 e.relpath []) e.relpath = true
    ∧ file_exists
        (file_delete (file_set_content tx1 e.relpath []) e.relpath)
        e.relpath = false := by
  refine ⟨hhs, ?_, ?_, ?_⟩
  · exact h0
  · simp [file_exists, txBlob, file_set_content, aget]
  · simp [file_exists, txBlob, file_delete, aget]

/-- C9 witness: the amended theorem at a concrete hashless link and empty
store. -/
theorem c9_empty_content_witness :
    (Link.hash_spec ⟨"http://pypi.org/pytest-1.2.zip", "pytest-1.2.zip", "",
        none⟩ = "")
    ∧ file_exists (newTx ⟨[], []⟩)
        ((maplink ["root", "pypi"]
          ⟨"http://pypi.org/pytest-1.2.zip", "pytest-1.2.zip", "", none⟩
          (newTx ⟨[], []⟩)).1).relpath = false
    ∧ (let e := (maplink ["root", "pypi"]
          ⟨"http://pypi.org/pytest-1.2.zip", "pytest-1.2.zip", "", none⟩
          (newTx ⟨[], []⟩)).1
       let tx1 := (maplink ["root", "pypi"]
          ⟨"http://pypi.org/pytest-1.2.zip", "pytest-1.2.zip", "", none⟩
          (newTx ⟨[], []⟩)).2
       e.hash_spec = ""
       ∧ file_exists tx1 e.relpath = false
       ∧ file_exists (file_set_content tx1 e.relpath []) e.relpath = true
       ∧ file_exists
           (file_delete (file_set_content tx1 e.relpath []) e.relpath)
           e.relpath = false) :=
  ⟨rfl, rfl, c9_empty_content _ _ _ rfl rfl⟩

/-- C10: after a successful `cache_remote_file()` whose response carried
neither a content-length nor a content-type header, `gethttpheaders()`
still returns a content-length equal to the decimal byte count of the
stored blob and a content-type derived from the entry's basename (a zip
media type for a `.zip` basename) — synthesized rather than captured. -/
theorem c10_synth_headers (digest : String → List Nat → String)
    (e : FileEntry) (r : HttpResponse) (tx : Tx)
    (hst : r.status_code = 200)
    (hcl : r.content_length = none)
    (hct : r.content_type = none)
    (hok : (cache_remote_file digest e r tx).1 = Except.ok ()) :
    (∃ lm : String,
      gethttpheaders (cache_remote_file digest e r tx).2 e =
        [("content-length", toString r.body.length),
         ("content-type", guess_type e.basename),
         ("last-modified", lm)])
    ∧ (e.basename.endsWith ".zip" = true →
        guess_type e.basename = "application/zip") := by
  constructor
  · by_cases hbad : e.hash_spec ≠ ""
        ∧ digest (hash_algo e.hash_spec) r.body ≠ hash_value e.hash_spec
    · exfalso
      have : (cache_remote_file digest e r tx).1 =
          Except.error (FetchErr.integrity (digest (hash_algo e.hash_spec)
            r.body) (hash_value e.hash_spec)) := by
        simp [cache_remote_file, hst, hcl, hbad]
      rw [this] at hok
      exact Except.noConfusion hok
    · have hout : (cache_remote_file digest e r tx).2 =
          file_set_content
            (setMeta tx e.relpath
              { url := e.url
                hash_spec := e.hash_spec
                eggfragment := e.eggfragment
                last_modified :=
                  match r.last_modified with
                  | some s => some s
                  | none =>
                      match txMeta tx e.relpath with
                      | some m => m.last_modified
                      | none => none })
            e.relpath r.body := by
        simp [cache_remote_file, hst, hcl, hbad]
      rw [hout]
      refine ⟨?_, ?_⟩
      · exact (match r.last_modified with
          | some s => some s
          | none =>
              match txMeta tx e.relpath with
              | some m => m.last_modified
              | none => none).getD ""
      · simp [gethttpheaders, txBlob, txMeta, file_set_content, setMeta, aget]
  · intro hz
    simp [guess_type, hz]

/-- C10 witness: the header-synthesis theorem at a concrete hashless entry
with a `.zip` basename and a header-free response. -/
theorem c10_synth_headers_witness :
    ((⟨200, none, none, none, [49, 50, 51]⟩ : HttpResponse).status_code = 200)
    ∧ ((⟨200, none, none, none, [49, 50, 51]⟩ :
        HttpResponse).content_length = none)
    ∧ ((⟨200, none, none, none, [49, 50, 51]⟩ :
        HttpResponse).content_type = none)
    ∧ ((cache_remote_file (fun _ _ => "")
        ⟨["root", "pypi", "+f", "pytest-1.8.zip"], "", "", none⟩
        ⟨200, none, none, none, [49, 50, 51]⟩ (newTx ⟨[], []⟩)).1
        = Except.ok ())
    ∧ ((∃ lm : String,
        gethttpheaders (cache_remote_file (fun _ _ => "")
          ⟨["root", "pypi", "+f", "pytest-1.8.zip"], "", "", none⟩
          ⟨200, none, none, none, [49, 50, 51]⟩ (newTx ⟨[], []⟩)).2
          ⟨["root", "pypi", "+f", "pytest-1.8.zip"], "", "", none⟩ =
          [("content-length",
            toString (HttpResponse.body
              ⟨200, none, none, none, [49, 50, 51]⟩).length),
           ("content-type", guess_type (FileEntry.basename
             ⟨["root", "pypi", "+f", "pytest-1.8.zip"], "", "", none⟩)),
           ("last-modified", lm)])
      ∧ ((FileEntry.basename
            ⟨["root", "pypi", "+f", "pytest-1.8.zip"], "",
             "", none⟩).endsWith ".zip" = true →
          guess_type (FileEntry.basename
            ⟨["root", "pypi", "+f", "pytest-1.8.zip"], "", "", none⟩)
            = "application/zip")) :=
  ⟨rfl, rfl, rfl, rfl, c10_synth_headers _ _ _ _ rfl rfl rfl rfl⟩

/-! ## Claim theorems: project indexing -/

/-- C7: `iter_projects` yields exactly the projects of the stages that are
still resolvable: a record is produced if and only if some listed user has
a listed index whose `getstage` resolves to the record's stage and the
stage reports the record's project name.  In particular an index whose
stage has been removed (`getstage` returning `none`) is silently skipped —
its projects are omitted — while every project of every resolvable stage
is still yielded, and no failure is possible (`iter_projects` is total). -/
theorem c7_iter_projects_skip (xom : Xom) (p : ProjectIndexingInfo) :
    p ∈ iter_projects xom ↔
      ∃ u ∈ xom.users, ∃ index ∈ u.indexes,
        xom.getstage u.name index = some p.stage
        ∧ p.name ∈ p.stage.list_projects_perstage := by
  have key : ∀ (uname index : String),
      (p ∈ (match xom.getstage uname index with
        | none => ([] : List ProjectIndexingInfo)
        | some stage =>
            stage.list_projects_perstage.map fun n => ⟨stage, n⟩))
      ↔ (xom.getstage uname index = some p.stage
         ∧ p.name ∈ p.stage.list_projects_perstage) := by
    intro uname index
    cases hgs : xom.getstage uname index with
    | none => simp
    | some stage =>
      simp only [List.mem_map]
      constructor
      · rintro ⟨n, hn, rfl⟩
        exact ⟨rfl, hn⟩
      · rintro ⟨hs, hn⟩
        obtain rfl : stage = p.stage := Option.some.inj hs
        exact ⟨p.name, hn, rfl⟩
  simp only [iter_projects, List.mem_flatMap, key]

theorem ahasKey_false_iff {κ : Type u} {α : Type v} [DecidableEq κ]
    (l : List (κ × α)) (k : κ) : ahasKey l k = false ↔ aget l k = none := by
  cases h : aget l k <;> simp [ahasKey, h]

theorem aget_none_forall {κ : Type u} {α : Type v} [DecidableEq κ]
    (l : List (κ × α)) (k : κ) :
    aget l k = none → ∀ kv ∈ l, kv.1 ≠ k := by
  induction l with
  | nil => intro _ kv hm; cases hm
  | cons kv₀ t ih =>
    obtain ⟨k₀, v₀⟩ := kv₀
    intro h kv hm
    rw [List.mem_cons] at hm
    by_cases h0 : k₀ = k
    · exfalso
      simp [aget, h0] at h
    · rcases hm with rfl | hm
      · simpa using h0
      · refine ih ?_ kv hm
        simpa [aget, h0] using h

theorem ahasKey_foldl_aset {κ : Type u} {α : Type v} [DecidableEq κ]
    (kvs : List (κ × α)) (k : κ) :
    ∀ res : List (κ × α), ahasKey res k = false →
      (∀ kv ∈ kvs, kv.1 ≠ k) →
      ahasKey (kvs.foldl (fun acc kv => aset acc kv.1 kv.2) res) k = false := by
  induction kvs with
  | nil => intro res h _; exact h
  | cons kv rest ih =>
    intro res h hall
    simp only [List.foldl_cons]
    refine ih _ ?_ (fun kv' hm => hall kv' (List.mem_cons_of_mem _ hm))
    have hne : kv.1 ≠ k := hall kv (List.mem_cons_self _ _)
    simpa [ahasKey, aget_aset_ne res kv.1 k kv.2 hne] using h

theorem ahasKey_mergeFirst (stage : Stage) (name v : String) (first : Bool)
    (result : List (String × MetaVal))
    (hres : ahasKey result "+doczip" = false)
    (hv : ahasKey (stage.get_versiondata_perstage name v) "+doczip" = false) :
    ahasKey (mergeFirst stage name v first result) "+doczip" = false := by
  cases first with
  | false => simpa [mergeFirst] using hres
  | true =>
    simp only [mergeFirst, if_pos]
    exact ahasKey_foldl_aset _ _ _ hres
      (aget_none_forall _ _ ((ahasKey_false_iff _ _).mp hv))

theorem versionScan_ok (stage : Stage) (name : String)
    (versions : List String) :
    ∀ (first : Bool) (result : List (String × MetaVal)),
      ahasKey result "+doczip" = false →
      (∀ v ∈ versions,
        ahasKey (stage.get_versiondata_perstage name v) "+doczip" = false) →
      ∃ r, versionScan stage name versions first result = Except.ok r := by
  induction versions with
  | nil => intro first result _ _; exact ⟨result, rfl⟩
  | cons v rest ih =>
    intro first result hres hall
    have hm : ahasKey (mergeFirst stage name v first result) "+doczip"
        = false :=
      ahasKey_mergeFirst stage name v first result hres
        (hall v (List.mem_cons_self _ _))
    by_cases hlinks : (stage.doczip_links name v).isEmpty
    · have := ih false (mergeFirst stage name v first result) hm
        (fun v' hm' => hall v' (List.mem_cons_of_mem _ hm'))
      obtain ⟨r, hr⟩ := this
      exact ⟨r, by simp [versionScan, hlinks, hm, hr]⟩
    · by_cases hd : stage.docs_exist name v
      · exact ⟨aset (aset (mergeFirst stage name v first result) "doc_version"
          (.str v)) "+doczip" (.docs v), by simp [versionScan, hlinks, hd]⟩
      · exact ⟨mergeFirst stage name v first result,
          by simp [versionScan, hlinks, hd]⟩

/-- C8 counterexample: the assertion can fire.  A non-mirror stage with a
single version whose stored version metadata itself contains a `+doczip`
key, and no doczip links, makes `preprocess_project` hit the
`assert '+doczip' not in result` (the newest version's metadata is merged
into `result` before the doc-link check), so the assertion does not hold
for every input. -/
theorem c8_counterexample :
    (preprocess_project
      { name := "user/dev"
        ixtype := "stage"
        cached := fun _ => true
        userIndex := some ("user", "dev")
        metadata_keys := []
        list_versions_perstage := fun _ => ["1.0"]
        get_versiondata_perstage := fun _ _ => [("+doczip", MetaVal.str "boom")]
        doczip_links := fun _ _ => []
        docs_exist := fun _ _ => false
        list_projects_perstage := ["proj"] }
      "proj").isOk = false := by
  rfl

/-- C8 (amended): in `preprocess_project`'s newest-to-oldest version scan,
the `'+doczip' not in result` assertion never fires provided no version's
stored metadata record itself contains the `+doczip` key; under that
proviso the doc handle is only ever set in the branch that immediately
stops the scan, so a version lacking a doc-link can never be examined
after a doc handle was set, and `preprocess_project` always succeeds. -/
theorem c8_doc_assert (stage : Stage) (projectName : String)
    (h : ∀ v ∈ stage.list_versions_perstage (normalize_name projectName),
      ahasKey (stage.get_versiondata_perstage (normalize_name projectName) v)
        "+doczip" = false) :
    (preprocess_project stage projectName).isOk = true := by
  by_cases hc : is_project_cached stage (normalize_name projectName)
  · have hstart : ahasKey [(("name" : String),
        MetaVal.str (normalize_name projectName))] "+doczip" = false := by
      have hne : ("name" : String) ≠ "+doczip" := by decide
      simp [ahasKey, aget, hne]
    have hsorted : ∀ v ∈ get_sorted_versions
        (stage.list_versions_perstage (normalize_name projectName)),
        ahasKey (stage.get_versiondata_perstage (normalize_name projectName) v)
          "+doczip" = false := by
      intro v hv
      exact h v ((List.perm_insertionSort _ _).subset hv)
    obtain ⟨r, hr⟩ := versionScan_ok stage (normalize_name projectName)
      (get_sorted_versions
        (stage.list_versions_perstage (normalize_name projectName)))
      true [("name", .str (normalize_name projectName))] hstart hsorted
    simp [preprocess_project, hc, hr, Except.isOk, Except.toBool]
  · simp [preprocess_project, hc, Except.isOk, Except.toBool]

/-- C8 witness: the amended theorem at a concrete stage whose version
metadata carries no `+doczip` key. -/
theorem c8_doc_assert_witness :
    (∀ v ∈ Stage.list_versions_perstage
        { name := "user/dev"
          ixtype := "stage"
          cached := fun _ => true
          userIndex := some ("user", "dev")
          metadata_keys := ["author"]
          list_versions_perstage := fun _ => ["1.0", "0.9"]
          get_versiondata_perstage := fun _ _ =>
            [("version", MetaVal.str "1.0"), ("author", MetaVal.str "UNKNOWN")]
          doczip_links := fun _ _ => []
          docs_exist := fun _ _ => false
          list_projects_perstage := ["proj"] } (normalize_name "proj"),
      ahasKey (Stage.get_versiondata_perstage
        { name := "user/dev"
          ixtype := "stage"
          cached := fun _ => true
          userIndex := some ("user", "dev")
          metadata_keys := ["author"]
          list_versions_perstage := fun _ => ["1.0", "0.9"]
          get_versiondata_perstage := fun _ _ =>
            [("version", MetaVal.str "1.0"), ("author", MetaVal.str "UNKNOWN")]
          doczip_links := fun _ _ => []
          docs_exist := fun _ _ => false
          list_projects_perstage := ["proj"] } (normalize_name "proj") v)
        "+doczip" = false)
    ∧ (preprocess_project
        { name := "user/dev"
          ixtype := "stage"
          cached := fun _ => true
          userIndex := some ("user", "dev")
          metadata_keys := ["author"]
          list_versions_perstage := fun _ => ["1.0", "0.9"]
          get_versiondata_perstage := fun _ _ =>
            [("version", MetaVal.str "1.0"), ("author", MetaVal.str "UNKNOWN")]
          doczip_links := fun _ _ => []
          docs_exist := fun _ _ => false
          list_projects_perstage := ["proj"] }
        "proj").isOk = true :=
  ⟨by decide, c8_doc_assert _ _ (by decide)⟩
